import Mathlib

set_option maxRecDepth 8000
set_option maxHeartbeats 1000000

namespace Eternity

/-- Characters of a JavaScript string, in order.  All string-rewriting code of
the preview pipeline is embedded as functions on `Chars`; `String` wrappers are
provided at the API boundary. -/
abbrev Chars := List Char

/-- Backtick character (code 96). -/
def btChar : Char := Char.ofNat 96

/-- Single-quote character (code 39). -/
def sqChar : Char := Char.ofNat 39

/-- Double-quote character (code 34). -/
def dqChar : Char := Char.ofNat 34

/-- Backslash character (code 92). -/
def bsChar : Char := Char.ofNat 92

/-- JavaScript regex class js-whitespace (ASCII part), as used by the source's
regexes: space, tab, newline, carriage return, vertical tab, form feed. -/
def isWsChar (c : Char) : Bool :=
  c == ' ' || c == '\t' || c == '\n' || c == '\r' || c == Char.ofNat 11 || c == Char.ofNat 12

def isDigitChar (c : Char) : Bool := decide ('0' ≤ c) && decide (c ≤ '9')

def isLowerChar (c : Char) : Bool := decide ('a' ≤ c) && decide (c ≤ 'z')

def isUpperChar (c : Char) : Bool := decide ('A' ≤ c) && decide (c ≤ 'Z')

def isAlphaChar (c : Char) : Bool := isLowerChar c || isUpperChar c

def isAlnumChar (c : Char) : Bool := isAlphaChar c || isDigitChar c

/-- JavaScript regex word character: [A-Za-z0-9_]. -/
def isWordChar (c : Char) : Bool := isAlnumChar c || c == '_'

def isQuoteChar (c : Char) : Bool := c == sqChar || c == dqChar

/-- ASCII lower-casing, as performed by String.prototype.toLowerCase on the
language tokens that occur here. -/
def lowerChar (c : Char) : Char := if isUpperChar c then Char.ofNat (c.toNat + 32) else c

/-- Length of the maximal run of characters satisfying p at the head of s. -/
def runLen (p : Char → Bool) (s : Chars) : Nat := (s.takeWhile p).length

/-- Match a literal at the head of s and return the remainder. -/
def afterLit (lit : String) (s : Chars) : Option Chars :=
  if lit.toList.isPrefixOf s then some (s.drop lit.toList.length) else none

def litAt (lit : String) (s : Chars) : Bool := lit.toList.isPrefixOf s

def lastIsNl (l : Chars) : Bool :=
  match l.getLast? with
  | some c => c == '\n'
  | none => false

/-- Index of the last newline of s, if any. -/
def lastNlIdx (s : Chars) : Option Nat :=
  match s.reverse.findIdx? (fun c => c == '\n') with
  | some j => some (s.length - 1 - j)
  | none => none

/-- JavaScript String.prototype.includes. -/
def containsL (hay nee : Chars) : Bool :=
  nee.isPrefixOf hay ||
    (match hay with
     | [] => false
     | _ :: rest => containsL rest nee)

/-- JavaScript String.prototype.trim (ASCII whitespace suffices here). -/
def trimChars (s : Chars) : Chars :=
  ((s.dropWhile isWsChar).reverse.dropWhile isWsChar).reverse

/-- Zero-width end-of-line assertion of a multiline regex, preceded by a greedy
js-whitespace-star, i.e. the tail fragment s-star-dollar: greedily consume
whitespace, backtracking until the position is the end of the string or sits
immediately before a newline.  Returns the number of characters consumed. -/
def wsEol (s : Chars) : Option Nat :=
  let v := runLen isWsChar s
  if s.length = v then some v
  else lastNlIdx (s.take v)

/-- Tail fragment semicolon-opt ws-star dollar of the import/export line
regexes. -/
def semiWsEol (s : Chars) : Option Nat :=
  match s with
  | c :: r => if c == ';' then (wsEol r).map (1 + ·) else wsEol s
  | [] => wsEol s

/-- Lazy dot-star followed by a closing quote and the semicolon/eol tail, for
the import regexes: the first quote character on the line at which the rest of
the pattern succeeds ends the match (dot does not cross a newline). -/
def closeQuoteSearch (s : Chars) : Option Nat :=
  match s with
  | [] => none
  | c :: r =>
    if isQuoteChar c then
      match semiWsEol r with
      | some n => some (1 + n)
      | none =>
        if c == '\n' then none
        else (closeQuoteSearch r).map (1 + ·)
    else if c == '\n' then none
    else (closeQuoteSearch r).map (1 + ·)

/-- The part of the import-from regex starting at the token from. -/
def fromTail (s : Chars) : Option Nat :=
  match afterLit "from" s with
  | none => none
  | some r =>
    let w := runLen isWsChar r
    if w = 0 then none
    else
      match r.drop w with
      | c :: r2 =>
        if isQuoteChar c then (closeQuoteSearch r2).map (fun n => 4 + w + 1 + n) else none
      | [] => none

/-- Lazy dot-star scan for the position of the token from, within the current
line (dot does not match a newline); first position at which the remainder of
the import-from pattern succeeds wins. -/
def fromSearch (acc : Nat) (s : Chars) : Option Nat :=
  match s with
  | [] => none
  | c :: rest =>
    match fromTail s with
    | some n => some (acc + n)
    | none => if c == '\n' then none else fromSearch (acc + 1) rest

/-- Matcher for one occurrence of the LivePreview/PreviewEngine source regex
that strips import-with-from lines (anchored at a line start by the caller). -/
def matchImportFromAt (s : Chars) : Option Nat :=
  match afterLit "import" s with
  | none => none
  | some r =>
    let w := runLen isWsChar r
    if w = 0 then none else fromSearch (6 + w) (r.drop w)

/-- Matcher for one occurrence of the bare-import regex (import directly
followed by a quoted module). -/
def matchImportBareAt (s : Chars) : Option Nat :=
  match afterLit "import" s with
  | none => none
  | some r =>
    let w := runLen isWsChar r
    if w = 0 then none
    else
      match r.drop w with
      | c :: r2 =>
        if isQuoteChar c then (closeQuoteSearch r2).map (fun n => 6 + w + 1 + n) else none
      | [] => none

/-- Matcher for one occurrence of the export-default prefix regex. -/
def matchExportDefaultAt (s : Chars) : Option Nat :=
  match afterLit "export" s with
  | none => none
  | some r =>
    let w1 := runLen isWsChar r
    if w1 = 0 then none
    else
      match afterLit "default" (r.drop w1) with
      | none => none
      | some r2 =>
        let w2 := runLen isWsChar r2
        if w2 = 0 then none else some (6 + w1 + 7 + w2)

/-- Matcher for one occurrence of the plain export prefix regex. -/
def matchExportPlainAt (s : Chars) : Option Nat :=
  match afterLit "export" s with
  | none => none
  | some r =>
    let w := runLen isWsChar r
    if w = 0 then none else some (6 + w)

/-- Matcher for one occurrence of the export-brace-list line regex, present
only in the PreviewEngine normalizer variant. -/
def matchExportBraceAt (s : Chars) : Option Nat :=
  match afterLit "export" s with
  | none => none
  | some r =>
    let w := runLen isWsChar r
    if w = 0 then none
    else
      match r.drop w with
      | c :: r2 =>
        if c == Char.ofNat 123 then
          let m := runLen (fun d => !(d == Char.ofNat 125)) r2
          match r2.drop m with
          | d :: r3 =>
            if d == Char.ofNat 125 then (semiWsEol r3).map (fun n => 6 + w + 1 + m + 1 + n)
            else none
          | [] => none
        else none
      | [] => none

/-- Global multiline remove-replace: scan the string once, attempting the
matcher at every line start (as the caret anchor of a g/m regex does), delete
each match and resume immediately after it, exactly as
String.prototype.replace with an empty replacement does. -/
def gmRemove (fuel : Nat) (m : Chars → Option Nat) (s : Chars) (atLS : Bool) : Chars :=
  match fuel, s with
  | 0, s => s
  | _ + 1, [] => []
  | fuel + 1, c :: rest =>
    if atLS then
      match m (c :: rest) with
      | some n =>
        if 0 < n then gmRemove fuel m ((c :: rest).drop n) (lastIsNl ((c :: rest).take n))
        else c :: gmRemove fuel m rest (c == '\n')
      | none => c :: gmRemove fuel m rest (c == '\n')
    else c :: gmRemove fuel m rest (c == '\n')

def gmRun (m : Chars → Option Nat) (s : Chars) : Chars := gmRemove (s.length + 1) m s true

/-- Global (unanchored) replace: at each position try the matcher, which
returns the consumed length and the replacement text; resume after the match. -/
def replaceScanF (fuel : Nat) (m : Chars → Option (Nat × Chars)) (s : Chars) : Chars :=
  match fuel, s with
  | 0, s => s
  | _ + 1, [] => []
  | fuel + 1, c :: rest =>
    match m (c :: rest) with
    | some (n, rep) =>
      if 0 < n then rep ++ replaceScanF fuel m ((c :: rest).drop n)
      else c :: replaceScanF fuel m rest
    | none => c :: replaceScanF fuel m rest

def replaceScan (m : Chars → Option (Nat × Chars)) (s : Chars) : Chars :=
  replaceScanF (s.length + 1) m s

/-- First-occurrence (non-global) unanchored replace. -/
def replaceFirstScan (m : Chars → Option (Nat × Chars)) (s : Chars) : Chars :=
  match s with
  | [] => []
  | c :: rest =>
    match m (c :: rest) with
    | some (n, rep) => rep ++ (c :: rest).drop n
    | none => c :: replaceFirstScan m rest

/-- First-occurrence replace for a caret-anchored multiline regex: the matcher
is attempted at line starts only. -/
def replaceFirstLS (m : Chars → Option Nat) (rep : Chars) (s : Chars) (atLS : Bool) : Chars :=
  match s with
  | [] => []
  | c :: rest =>
    if atLS then
      match m (c :: rest) with
      | some n => rep ++ (c :: rest).drop n
      | none => c :: replaceFirstLS m rep rest (c == '\n')
    else c :: replaceFirstLS m rep rest (c == '\n')

/-- First match of a caret-anchored multiline regex, returning its payload. -/
def findFirstLS (m : Chars → Option α) (s : Chars) (atLS : Bool) : Option α :=
  match s with
  | [] => none
  | c :: rest =>
    if atLS then
      match m (c :: rest) with
      | some a => some a
      | none => findFirstLS m rest (c == '\n')
    else findFirstLS m rest (c == '\n')

/-- First match of an unanchored regex: try the matcher at every position,
leftmost success wins. -/
def scanFirst (m : Chars → Option α) (s : Chars) : Option α :=
  match s with
  | [] => none
  | _ :: rest =>
    match m s with
    | some a => some a
    | none => scanFirst m rest

/-- Test of an unanchored regex that needs the preceding character (for the
word-boundary assertion). -/
def scanWithPrev (f : Option Char → Chars → Bool) (prev : Option Char) (s : Chars) : Bool :=
  match s with
  | [] => false
  | c :: rest => f prev (c :: rest) || scanWithPrev f (some c) rest

/-- Word-boundary test for a pattern whose next character is a word character:
the previous character must be absent or a non-word character. -/
def boundaryBefore (prev : Option Char) : Bool :=
  match prev with
  | none => true
  | some c => !(isWordChar c)

end Eternity

namespace Eternity

/-- Probe for the test regex backslash-b function ws-plus App ws-star lparen,
at a position whose preceding character satisfies the word boundary. -/
def funcAppProbe (t : Chars) : Bool :=
  match afterLit "function" t with
  | none => false
  | some r =>
    let w := runLen isWsChar r
    if w = 0 then false
    else
      match afterLit "App" (r.drop w) with
      | none => false
      | some r2 =>
        let v := runLen isWsChar r2
        litAt "(" (r2.drop v)

/-- Probe for the test regex backslash-b const ws-plus App ws-star equals. -/
def constAppProbe (t : Chars) : Bool :=
  match afterLit "const" t with
  | none => false
  | some r =>
    let w := runLen isWsChar r
    if w = 0 then false
    else
      match afterLit "App" (r.drop w) with
      | none => false
      | some r2 =>
        let v := runLen isWsChar r2
        litAt "=" (r2.drop v)

/-- The hasApp detection shared verbatim by both normalizer variants. -/
def hasAppBinding (s : Chars) : Bool :=
  scanWithPrev (fun prev t => boundaryBefore prev && funcAppProbe t) none s ||
    scanWithPrev (fun prev t => boundaryBefore prev && constAppProbe t) none s

/-- Probe for the funcMatch regex: caret function ws-plus capitalized
identifier ws-star lparen; returns the captured identifier. -/
def funcDeclProbe (t : Chars) : Option Chars :=
  match afterLit "function" t with
  | none => none
  | some r =>
    let w := runLen isWsChar r
    if w = 0 then none
    else
      match r.drop w with
      | c :: r2 =>
        if isUpperChar c then
          let tl := r2.takeWhile isAlnumChar
          let r3 := r2.drop tl.length
          let v := runLen isWsChar r3
          if litAt "(" (r3.drop v) then some (c :: tl) else none
        else none
      | [] => none

/-- Identifier of the first multiline funcMatch, if any. -/
def funcDeclName (s : Chars) : Option Chars := findFirstLS funcDeclProbe s true

/-- The trailing alternation of the constMatch regex after the equals sign:
ws-star, then either a parenthesized parameter list or a single non-equals
character followed by ws-star and an arrow, or an optional lparen followed by
the token function.  k counts the whitespace characters still consumed by the
greedy ws-star, backtracking downwards. -/
def constTailAlt (r : Chars) : Bool :=
  (match r with
   | c :: r1 =>
     (if c == '(' then
        let m := runLen (fun d => !(d == ')')) r1
        match r1.drop m with
        | d :: r2 =>
          d == ')' && (let w := runLen isWsChar r2; litAt "=>" (r2.drop w))
        | [] => false
      else false) ||
     (!(c == '=') && (let w := runLen isWsChar r1; litAt "=>" (r1.drop w)))
   | [] => false) ||
  (match r with
   | c :: r1 => if c == '(' then litAt "function" r1 else litAt "function" r
   | [] => false)

def constTailK (s : Chars) (k : Nat) : Bool :=
  constTailAlt (s.drop k) ||
    (match k with
     | 0 => false
     | k' + 1 => constTailK s k')

def constTailOk (s : Chars) : Bool := constTailK s (runLen isWsChar s)

/-- Probe for the constMatch regex: caret const ws-plus capitalized identifier
ws-star equals, followed by the arrow-or-function alternation; returns the
captured identifier. -/
def constDeclProbe (t : Chars) : Option Chars :=
  match afterLit "const" t with
  | none => none
  | some r =>
    let w := runLen isWsChar r
    if w = 0 then none
    else
      match r.drop w with
      | c :: r2 =>
        if isUpperChar c then
          let tl := r2.takeWhile isAlnumChar
          let r3 := r2.drop tl.length
          let v := runLen isWsChar r3
          match r3.drop v with
          | e :: r4 => if e == '=' && constTailOk r4 then some (c :: tl) else none
          | [] => none
        else none
      | [] => none

/-- Identifier of the first multiline constMatch, if any. -/
def constDeclName (s : Chars) : Option Chars := findFirstLS constDeclProbe s true

/-- Single multiline replace of the declaration site caret function ws-plus
name ws-star lparen by the canonical declaration. -/
def renameFuncDecl (nm : Chars) (s : Chars) : Chars :=
  replaceFirstLS
    (fun t =>
      match afterLit "function" t with
      | none => none
      | some r =>
        let w := runLen isWsChar r
        if w = 0 then none
        else if nm.isPrefixOf (r.drop w) then
          let r2 := (r.drop w).drop nm.length
          let v := runLen isWsChar r2
          if litAt "(" (r2.drop v) then some (8 + w + nm.length + v + 1) else none
        else none)
    "function App(".toList s true

/-- Single multiline replace of the declaration site caret const ws-plus name
ws-star equals by the canonical declaration. -/
def renameConstDecl (nm : Chars) (s : Chars) : Chars :=
  replaceFirstLS
    (fun t =>
      match afterLit "const" t with
      | none => none
      | some r =>
        let w := runLen isWsChar r
        if w = 0 then none
        else if nm.isPrefixOf (r.drop w) then
          let r2 := (r.drop w).drop nm.length
          let v := runLen isWsChar r2
          if litAt "=" (r2.drop v) then some (5 + w + nm.length + v + 1) else none
        else none)
    "const App =".toList s true

/-- Global replace of opening-tag usages: less-than name followed by a captured
whitespace, greater-than or slash character, replaced keeping the capture. -/
def renameOpenTags (nm : Chars) (s : Chars) : Chars :=
  replaceScan
    (fun t =>
      match t with
      | c :: r =>
        if c == '<' && nm.isPrefixOf r then
          match r.drop nm.length with
          | d :: _ =>
            if isWsChar d || d == '>' || d == '/' then
              some (1 + nm.length + 1, "<App".toList ++ [d])
            else none
          | [] => none
        else none
      | [] => none)
    s

/-- Global replace of closing-tag usages of the renamed identifier. -/
def renameCloseTags (nm : Chars) (s : Chars) : Chars :=
  replaceScan
    (fun t =>
      let pat := "</".toList ++ nm ++ ">".toList
      if pat.isPrefixOf t then some (pat.length, "</App>".toList) else none)
    s

end Eternity

namespace LivePreview

open Eternity

/-- The four sequential strip passes of the LivePreview normalizer (import
with from, bare import, export default prefix, plain export prefix), followed
by the trim, i.e. everything before the hasApp check. -/
def cleanStage1 (s : Chars) : Chars :=
  trimChars
    (gmRun matchExportPlainAt
      (gmRun matchExportDefaultAt
        (gmRun matchImportBareAt
          (gmRun matchImportFromAt s))))

/-- The cleanReactCode function of LivePreview.tsx (lines 367-405), on
character lists. -/
def cleanReactCodeL (s : Chars) : Chars :=
  let cleaned := cleanStage1 s
  if hasAppBinding cleaned then cleaned
  else
    match funcDeclName cleaned with
    | some nm => renameCloseTags nm (renameOpenTags nm (renameFuncDecl nm cleaned))
    | none =>
      match constDeclName cleaned with
      | some nm => renameCloseTags nm (renameOpenTags nm (renameConstDecl nm cleaned))
      | none => cleaned

/-- The cleanReactCode function of LivePreview.tsx, on strings. -/
def cleanReactCode (s : String) : String := String.mk (cleanReactCodeL s.toList)

/-- String-level wrapper of the strip-and-trim stage, for stating when a string
is a fixed point of it. -/
def cleanStage1S (s : String) : String := String.mk (cleanStage1 s.toList)

/-- String-level wrapper of the hasApp detection. -/
def hasAppBindingS (s : String) : Bool := hasAppBinding s.toList

end LivePreview


namespace Eternity

/-- A virtual source file as produced by the extractor and consumed by the
preview components (interface CodeFile of CodePreview.tsx). -/
structure CodeFile where
  name : String
  language : String
  content : String
deriving Repr, DecidableEq

/-- JavaScript String.prototype.endsWith. -/
def endsWithJS (s sfx : String) : Bool := sfx.toList.isSuffixOf s.toList

/-- JavaScript String.prototype.includes, on strings. -/
def containsJS (hay nee : String) : Bool := containsL hay.toList nee.toList

/-- JavaScript String.prototype.replace with a plain-string pattern: replaces
the first occurrence only. -/
def replaceFirstL (pat rep s : Chars) : Chars :=
  if pat.isPrefixOf s then rep ++ s.drop pat.length
  else
    match s with
    | [] => []
    | c :: r => c :: replaceFirstL pat rep r

def replaceFirstJS (s pat rep : String) : String :=
  String.mk (replaceFirstL pat.toList rep.toList s.toList)

/-- JavaScript truthiness of the string-or-null error value. -/
def errTruthy : Option String → Bool
  | none => false
  | some e => !(e == "")

/-- First (unanchored) occurrence of a substring, with its index. -/
def firstSubIdxAux (nee s : Chars) (i : Nat) : Option Nat :=
  if nee.isPrefixOf s then some i
  else
    match s with
    | [] => none
    | _ :: r => firstSubIdxAux nee r (i + 1)

/-- JavaScript String.prototype.lastIndexOf, as an Option. -/
def lastSubIdxAux (nee s : Chars) (i : Nat) (best : Option Nat) : Option Nat :=
  match s with
  | [] => best
  | _ :: r => lastSubIdxAux nee r (i + 1) (if nee.isPrefixOf s then some i else best)

def lastSubIdx (s nee : Chars) : Option Nat := lastSubIdxAux nee s 0 none

/-- JavaScript String.prototype.indexOf with a start position (inclusive). -/
def idxOfCharFrom (s : Chars) (c : Char) (start : Nat) : Option Nat :=
  (firstSubIdxAux [c] (s.drop start) 0).map (start + ·)

/-- Maximum of two optional indices; absence is JavaScript's -1. -/
def maxOpt : Option Nat → Option Nat → Option Nat
  | some x, some y => some (max x y)
  | some x, none => some x
  | none, some y => some y
  | none, none => none

end Eternity

deriving instance DecidableEq for Except

namespace PreviewEngine

open Eternity

/-- Message of the SyntaxError raised by new RegExp on a pattern with an
unterminated group. -/
def regexErrorMsg : String := "Invalid regular expression: missing )"

/-- The two-character escaped-backslash sequence that the doubly-escaped
template literals of PreviewEngine.tsx place into their dynamically built
pattern strings. -/
def bs2 : String := "\\\\"

/-- Group balance check of a JavaScript regex pattern string, the condition
under which new RegExp succeeds for the pattern shapes built here (escape
sequences are skipped; an unmatched parenthesis is a SyntaxError). -/
def jsRegexBalancedAux (s : Chars) (depth : Nat) : Bool :=
  match s with
  | [] => depth == 0
  | c :: r =>
    if c == bsChar then
      match r with
      | _ :: r2 => jsRegexBalancedAux r2 depth
      | [] => false
    else if c == '(' then jsRegexBalancedAux r (depth + 1)
    else if c == ')' then
      match depth with
      | 0 => false
      | d + 1 => jsRegexBalancedAux r d
    else jsRegexBalancedAux r depth

def jsRegexBalanced (p : String) : Bool := jsRegexBalancedAux p.toList 0

/-- Model of new RegExp(p): succeeds exactly when the pattern compiles. -/
def jsNewRegexCheck (p : String) : Except String Unit :=
  if jsRegexBalanced p then Except.ok () else Except.error regexErrorMsg

/-- The dynamically built declaration-rename pattern of the funcMatch branch of
PreviewEngine.cleanReactCode: caret function, escaped backslash, s-plus, the
identifier, escaped backslash, s-star, escaped backslash, lparen — the final
backslash pair leaves the lparen unescaped and the group unterminated. -/
def funcRenamePat (nm : String) : String :=
  "^function" ++ bs2 ++ "s+" ++ nm ++ bs2 ++ "s*" ++ bs2 ++ "("

/-- The five sequential strip passes of the PreviewEngine normalizer (the
LivePreview four plus the export-brace-list line rule), followed by the trim. -/
def cleanStage1 (s : Chars) : Chars :=
  trimChars
    (gmRun matchExportPlainAt
      (gmRun matchExportBraceAt
        (gmRun matchExportDefaultAt
          (gmRun matchImportBareAt
            (gmRun matchImportFromAt s)))))

/-- Global replace of opening tags per the PreviewEngine doubly-escaped
pattern: less-than, the identifier, then one of the three alternatives literal
backslash-s, greater-than, or literal backslash-slash (the doubled escapes turn
the whitespace class and the escaped slash into literal backslash sequences). -/
def renameOpenTagsPE (nm : Chars) (s : Chars) : Chars :=
  replaceScan
    (fun t =>
      match t with
      | c :: r =>
        if c == '<' && nm.isPrefixOf r then
          let r2 := r.drop nm.length
          if [bsChar, 's'].isPrefixOf r2 then
            some (1 + nm.length + 2, "<App".toList ++ [bsChar, 's'])
          else if litAt ">" r2 then some (1 + nm.length + 1, "<App>".toList)
          else if [bsChar, '/'].isPrefixOf r2 then
            some (1 + nm.length + 2, "<App".toList ++ [bsChar, '/'])
          else none
        else none
      | [] => none)
    s

/-- First-occurrence multiline replace of the PreviewEngine const-declaration
pattern: caret const, literal backslash, a run of s characters, the identifier,
literal backslash, a run of s characters, equals. -/
def renameConstDeclPE (nm : Chars) (s : Chars) : Chars :=
  replaceFirstLS
    (fun t =>
      match afterLit "const" t with
      | some (c :: r) =>
        if c == bsChar then
          let k := runLen (fun d => d == 's') r
          if k = 0 then none
          else if nm.isPrefixOf (r.drop k) then
            match (r.drop k).drop nm.length with
            | d :: r2 =>
              if d == bsChar then
                let k2 := runLen (fun e => e == 's') r2
                if litAt "=" (r2.drop k2) then some (5 + 1 + k + nm.length + 1 + k2 + 1)
                else none
              else none
            | [] => none
          else none
        else none
      | _ => none)
    "const App =".toList s true

/-- The cleanReactCode callback of PreviewEngine.tsx (lines 44-77).  Because
its template literals double-escape the backslashes, the funcMatch rename
pattern is an invalid regex and its construction throws, and the remaining
dynamic patterns match literal backslash sequences instead of whitespace. -/
def cleanReactCodeL (s : Chars) : Except String Chars :=
  let cleaned := cleanStage1 s
  if hasAppBinding cleaned then Except.ok cleaned
  else
    match funcDeclName cleaned with
    | some nm =>
      match jsNewRegexCheck (funcRenamePat (String.mk nm)) with
      | Except.error e => Except.error e
      | Except.ok _ =>
        Except.ok (renameCloseTags nm (renameOpenTagsPE nm cleaned))
    | none =>
      match constDeclName cleaned with
      | some nm =>
        Except.ok (renameCloseTags nm (renameOpenTagsPE nm (renameConstDeclPE nm cleaned)))
      | none => Except.ok cleaned

/-- The cleanReactCode callback of PreviewEngine.tsx, on strings; an error is a
thrown exception. -/
def cleanReactCode (s : String) : Except String String :=
  (cleanReactCodeL s.toList).map String.mk

/-- Global replace of the PreviewEngine autoFixCode declaration-rename pattern
function, literal backslash, a run of s characters, the identifier (the doubled
escape again makes the whitespace class literal). -/
def renameFuncLitBS (nm missing : Chars) (s : Chars) : Chars :=
  replaceScan
    (fun t =>
      match afterLit "function" t with
      | some (c :: r) =>
        if c == bsChar then
          let k := runLen (fun d => d == 's') r
          if k = 0 then none
          else if nm.isPrefixOf (r.drop k) then
            some (8 + 1 + k + nm.length, "function ".toList ++ missing)
          else none
        else none
      | _ => none)
    s

/-- The autoFixCode callback of PreviewEngine.tsx (lines 80-125). -/
def autoFixCodeL (code errorMsg : Chars) : Chars :=
  let fixed := code
  let fixed :=
    if containsL errorMsg "is not defined".toList then
      match scanFirst
          (fun t =>
            let r := t.takeWhile isWordChar
            if r.isEmpty then none
            else if litAt " is not defined" (t.drop r.length) then some r else none)
          errorMsg with
      | some missing =>
        if isUpperChar (missing.headD ' ') then
          match scanFirst funcDeclProbe fixed with
          | some nm =>
            if !(nm == missing) then renameFuncLitBS nm missing fixed else fixed
          | none => fixed
        else fixed
      | none => fixed
    else fixed
  let fixed :=
    if containsL errorMsg "Adjacent JSX elements".toList then
      if !(containsL fixed "return (".toList) && containsL fixed "return".toList then
        let f1 := replaceFirstScan
          (fun t =>
            match afterLit "return" t with
            | some r =>
              let w := runLen isWsChar r
              if litAt "<" (r.drop w) then some (6 + w + 1, "return (<><".toList) else none
            | none => none)
          fixed
        match maxOpt (lastSubIdx f1 "/>".toList) (lastSubIdx f1 "</".toList) with
        | some endPos =>
          match idxOfCharFrom f1 ')' endPos with
          | some j => f1.take j ++ "</>)".toList ++ f1.drop (j + 1)
          | none => f1
        | none => f1
      else fixed
    else fixed
  let fixed :=
    if containsL errorMsg "Unexpected token".toList then
      let f1 := replaceScan
        (fun t =>
          match t with
          | c :: r =>
            if c == Char.ofNat 125 then
              let w := runLen isWsChar r
              match afterLit "else" (r.drop w) with
              | some r2 =>
                let w2 := runLen isWsChar r2
                if litAt "\x7b" (r2.drop w2) then
                  some (1 + w + 4 + w2 + 1, "\x7d else \x7b".toList)
                else none
              | none => none
            else none
          | [] => none)
        fixed
      replaceScan
        (fun t =>
          match t with
          | c :: r =>
            if c == Char.ofNat 125 then
              let w := runLen isWsChar r
              match afterLit "catch" (r.drop w) with
              | some r2 =>
                let w2 := runLen isWsChar r2
                if litAt "(" (r2.drop w2) then
                  some (1 + w + 5 + w2 + 1, "\x7d catch (".toList)
                else none
              | none => none
            else none
          | [] => none)
        f1
    else fixed
  fixed

/-- The autoFixCode callback of PreviewEngine.tsx, on strings. -/
def autoFixCode (code errorMsg : String) : String :=
  String.mk (autoFixCodeL code.toList errorMsg.toList)

end PreviewEngine

namespace PreviewEngine

open Eternity

/-- Literal part of the PreviewEngine React document template before the interpolated stylesheet content. -/
def reactTplA : String := "<!DOCTYPE html>\n<html lang=\"en\">\n<head>\n  <meta charset=\"UTF-8\">\n  <meta name=\"viewport\" content=\"width=device-width, initial-scale=1.0\">\n  <title>Preview</title>\n  <script src=\"https://unpkg.com/react@18/umd/react.development.js\" crossorigin></script>\n  <script src=\"https://unpkg.com/react-dom@18/umd/react-dom.development.js\" crossorigin></script>\n  <script src=\"https://unpkg.com/@babel/standalone/babel.min.js\"></script>\n  <script src=\"https://cdn.tailwindcss.com\"></script>\n  <style>\n    * \x7b margin: 0; padding: 0; box-sizing: border-box; \x7d\n    body \x7b \n      font-family: system-ui, -apple-system, BlinkMacSystemFont, \x27Segoe UI\x27, Roboto, sans-serif;\n      min-height: 100vh;\n      background: #ffffff;\n    \x7d\n    #root \x7b min-height: 100vh; \x7d\n    .preview-error \x7b\n      color: #ef4444;\n      padding: 20px;\n      font-family: system-ui;\n    \x7d\n    .preview-error h3 \x7b margin-bottom: 8px; \x7d\n    .preview-error pre \x7b \n      background: #fef2f2; \n      padding: 12px; \n      border-radius: 8px; \n      font-size: 12px; \n      overflow: auto;\n      white-space: pre-wrap;\n    \x7d\n    "

/-- Literal part of the React template between the stylesheet content and the embedded user code. -/
def reactTplB : String := "\n  </style>\n</head>\n<body>\n  <div id=\"root\"></div>\n  <script type=\"text/babel\" data-presets=\"react\">\n    const \x7b useState, useEffect, useCallback, useMemo, useRef, createContext, useContext, Fragment, memo, forwardRef \x7d = React;\n    \n    // Polyfill for common Lucide icons\n    const createIcon = (paths) => (\x7b className = \"\", size = 24, ...props \x7d) => \n      React.createElement(\x27svg\x27, \x7b\n        xmlns: \"http://www.w3.org/2000/svg\",\n        width: size,\n        height: size,\n        viewBox: \"0 0 24 24\",\n        fill: \"none\",\n        stroke: \"currentColor\",\n        strokeWidth: 2,\n        strokeLinecap: \"round\",\n        strokeLinejoin: \"round\",\n        className,\n        ...props\n      \x7d, paths);\n    \n    const ChevronRight = createIcon([React.createElement(\x27path\x27, \x7b key: \x271\x27, d: \x27M9 18l6-6-6-6\x27 \x7d)]);\n    const ChevronDown = createIcon([React.createElement(\x27path\x27, \x7b key: \x271\x27, d: \x27M6 9l6 6 6-6\x27 \x7d)]);\n    const X = createIcon([React.createElement(\x27path\x27, \x7b key: \x271\x27, d: \x27M18 6L6 18\x27 \x7d), React.createElement(\x27path\x27, \x7b key: \x272\x27, d: \x27M6 6l12 12\x27 \x7d)]);\n    const Plus = createIcon([React.createElement(\x27path\x27, \x7b key: \x271\x27, d: \x27M12 5v14\x27 \x7d), React.createElement(\x27path\x27, \x7b key: \x272\x27, d: \x27M5 12h14\x27 \x7d)]);\n    const Minus = createIcon([React.createElement(\x27path\x27, \x7b key: \x271\x27, d: \x27M5 12h14\x27 \x7d)]);\n    const Check = createIcon([React.createElement(\x27path\x27, \x7b key: \x271\x27, d: \x27M20 6L9 17l-5-5\x27 \x7d)]);\n    const Search = createIcon([React.createElement(\x27circle\x27, \x7b key: \x271\x27, cx: 11, cy: 11, r: 8 \x7d), React.createElement(\x27path\x27, \x7b key: \x272\x27, d: \x27M21 21l-4.35-4.35\x27 \x7d)]);\n    const Menu = createIcon([React.createElement(\x27line\x27, \x7b key: \x271\x27, x1: 4, x2: 20, y1: 12, y2: 12 \x7d), React.createElement(\x27line\x27, \x7b key: \x272\x27, x1: 4, x2: 20, y1: 6, y2: 6 \x7d), React.createElement(\x27line\x27, \x7b key: \x273\x27, x1: 4, x2: 20, y1: 18, y2: 18 \x7d)]);\n    const Home = createIcon([React.createElement(\x27path\x27, \x7b key: \x271\x27, d: \x27M3 9l9-7 9 7v11a2 2 0 01-2 2H5a2 2 0 01-2-2z\x27 \x7d)]);\n    const User = createIcon([React.createElement(\x27path\x27, \x7b key: \x271\x27, d: \x27M19 21v-2a4 4 0 00-4-4H9a4 4 0 00-4 4v2\x27 \x7d), React.createElement(\x27circle\x27, \x7b key: \x272\x27, cx: 12, cy: 7, r: 4 \x7d)]);\n    const Settings = createIcon([React.createElement(\x27circle\x27, \x7b key: \x271\x27, cx: 12, cy: 12, r: 3 \x7d), React.createElement(\x27path\x27, \x7b key: \x272\x27, d: \x27M19.4 15a1.65 1.65 0 00.33 1.82l.06.06a2 2 0 010 2.83 2 2 0 01-2.83 0l-.06-.06a1.65 1.65 0 00-1.82-.33 1.65 1.65 0 00-1 1.51V21a2 2 0 01-2 2 2 2 0 01-2-2v-.09A1.65 1.65 0 009 19.4a1.65 1.65 0 00-1.82.33l-.06.06a2 2 0 01-2.83 0 2 2 0 010-2.83l.06-.06a1.65 1.65 0 00.33-1.82 1.65 1.65 0 00-1.51-1H3a2 2 0 01-2-2 2 2 0 012-2h.09A1.65 1.65 0 004.6 9a1.65 1.65 0 00-.33-1.82l-.06-.06a2 2 0 010-2.83 2 2 0 012.83 0l.06.06a1.65 1.65 0 001.82.33H9a1.65 1.65 0 001-1.51V3a2 2 0 012-2 2 2 0 012 2v.09a1.65 1.65 0 001 1.51 1.65 1.65 0 001.82-.33l.06-.06a2 2 0 012.83 0 2 2 0 010 2.83l-.06.06a1.65 1.65 0 00-.33 1.82V9a1.65 1.65 0 001.51 1H21a2 2 0 012 2 2 2 0 01-2 2h-.09a1.65 1.65 0 00-1.51 1z\x27 \x7d)]);\n    const Mail = createIcon([React.createElement(\x27rect\x27, \x7b key: \x271\x27, width: 20, height: 16, x: 2, y: 4, rx: 2 \x7d), React.createElement(\x27path\x27, \x7b key: \x272\x27, d: \x27m22 7-8.97 5.7a1.94 1.94 0 0 1-2.06 0L2 7\x27 \x7d)]);\n    const Star = createIcon([React.createElement(\x27polygon\x27, \x7b key: \x271\x27, points: \x2712 2 15.09 8.26 22 9.27 17 14.14 18.18 21.02 12 17.77 5.82 21.02 7 14.14 2 9.27 8.91 8.26 12 2\x27 \x7d)]);\n    const Heart = createIcon([React.createElement(\x27path\x27, \x7b key: \x271\x27, d: \x27M19 14c1.49-1.46 3-3.21 3-5.5A5.5 5.5 0 0016.5 3c-1.76 0-3 .5-4.5 2-1.5-1.5-2.74-2-4.5-2A5.5 5.5 0 002 8.5c0 2.3 1.5 4.05 3 5.5l7 7z\x27 \x7d)]);\n    const ShoppingCart = createIcon([React.createElement(\x27circle\x27, \x7b key: \x271\x27, cx: 8, cy: 21, r: 1 \x7d), React.createElement(\x27circle\x27, \x7b key: \x272\x27, cx: 19, cy: 21, r: 1 \x7d), React.createElement(\x27path\x27, \x7b key: \x273\x27, d: \x27M2.05 2.05h2l2.66 12.42a2 2 0 002 1.58h9.78a2 2 0 001.95-1.57l1.65-7.43H5.12\x27 \x7d)]);\n    const ArrowRight = createIcon([React.createElement(\x27path\x27, \x7b key: \x271\x27, d: \x27M5 12h14\x27 \x7d), React.createElement(\x27path\x27, \x7b key: \x272\x27, d: \x27m12 5 7 7-7 7\x27 \x7d)]);\n    const ArrowLeft = createIcon([React.createElement(\x27path\x27, \x7b key: \x271\x27, d: \x27M19 12H5\x27 \x7d), React.createElement(\x27path\x27, \x7b key: \x272\x27, d: \x27m12 19-7-7 7-7\x27 \x7d)]);\n    const Loader2 = createIcon([React.createElement(\x27path\x27, \x7b key: \x271\x27, d: \x27M21 12a9 9 0 11-6.219-8.56\x27 \x7d)]);\n    const AlertCircle = createIcon([React.createElement(\x27circle\x27, \x7b key: \x271\x27, cx: 12, cy: 12, r: 10 \x7d), React.createElement(\x27line\x27, \x7b key: \x272\x27, x1: 12, y1: 8, x2: 12, y2: 12 \x7d), React.createElement(\x27line\x27, \x7b key: \x273\x27, x1: 12, y1: 16, x2: 12.01, y2: 16 \x7d)]);\n    const CheckCircle = createIcon([React.createElement(\x27path\x27, \x7b key: \x271\x27, d: \x27M22 11.08V12a10 10 0 11-5.93-9.14\x27 \x7d), React.createElement(\x27polyline\x27, \x7b key: \x272\x27, points: \x2722 4 12 14.01 9 11.01\x27 \x7d)]);\n\n    // Make icons available globally\n    window.ChevronRight = ChevronRight;\n    window.ChevronDown = ChevronDown;\n    window.X = X;\n    window.Plus = Plus;\n    window.Minus = Minus;\n    window.Check = Check;\n    window.Search = Search;\n    window.Menu = Menu;\n    window.Home = Home;\n    window.User = User;\n    window.Settings = Settings;\n    window.Mail = Mail;\n    window.Star = Star;\n    window.Heart = Heart;\n    window.ShoppingCart = ShoppingCart;\n    window.ArrowRight = ArrowRight;\n    window.ArrowLeft = ArrowLeft;\n    window.Loader2 = Loader2;\n    window.AlertCircle = AlertCircle;\n    window.CheckCircle = CheckCircle;\n    \n    // User code\n    "

/-- Literal part of the React template after the embedded user code. -/
def reactTplC : String := "\n    \n    // Render\n    (function() \x7b\n      try \x7b\n        const container = document.getElementById(\x27root\x27);\n        if (!container) throw new Error(\x27Root container not found\x27);\n        \n        if (typeof App === \x27undefined\x27) \x7b\n          throw new Error(\x27App component is not defined. Make sure your component is named \"App\" or exported as default.\x27);\n        \x7d\n        \n        const root = ReactDOM.createRoot(container);\n        root.render(React.createElement(App));\n        \n        window.parent.postMessage(\x7b type: \x27preview-ready\x27 \x7d, \x27*\x27);\n      \x7d catch (e) \x7b\n        window.parent.postMessage(\x7b type: \x27preview-error\x27, error: e.message, stack: e.stack \x7d, \x27*\x27);\n        const root = document.getElementById(\x27root\x27);\n        if (root) \x7b\n          root.innerHTML = \x27<div class=\"preview-error\"><h3>\u26a0\ufe0f Render Error</h3><pre>\x27 + e.message + \x27</pre></div>\x27;\n        \x7d\n        console.error(\x27Preview render error:\x27, e);\n      \x7d\n    \x7d)();\n  </script>\n</body>\n</html>"

/-- Literal parts of the plain-script document template. -/
def plainTplA : String := "<!DOCTYPE html>\n<html lang=\"en\">\n<head>\n  <meta charset=\"UTF-8\">\n  <meta name=\"viewport\" content=\"width=device-width, initial-scale=1.0\">\n  <title>Preview</title>\n  <script src=\"https://cdn.tailwindcss.com\"></script>\n  <style>\n    * \x7b margin: 0; padding: 0; box-sizing: border-box; \x7d\n    body \x7b \n      font-family: system-ui, -apple-system, sans-serif;\n      padding: 20px;\n      background: #ffffff;\n    \x7d\n    "

def plainTplB : String := "\n  </style>\n</head>\n<body>\n  <script>\n    try \x7b\n      "

def plainTplC : String := "\n      window.parent.postMessage(\x7b type: \x27preview-ready\x27 \x7d, \x27*\x27);\n    \x7d catch (e) \x7b\n      window.parent.postMessage(\x7b type: \x27preview-error\x27, error: e.message \x7d, \x27*\x27);\n      document.body.innerHTML = \x27<div style=\"color: #ef4444; padding: 20px;\"><h3>Error:</h3><pre>\x27 + e.message + \x27</pre></div>\x27;\n    \x7d\n  </script>\n</body>\n</html>"

/-- Literal parts of the stylesheet-only document template. -/
def cssTplA : String := "<!DOCTYPE html>\n<html lang=\"en\">\n<head>\n  <meta charset=\"UTF-8\">\n  <meta name=\"viewport\" content=\"width=device-width, initial-scale=1.0\">\n  <title>CSS Preview</title>\n  <style>\n    * \x7b margin: 0; padding: 0; box-sizing: border-box; \x7d\n    body \x7b \n      font-family: system-ui, -apple-system, sans-serif;\n      min-height: 100vh;\n      background: #ffffff;\n    \x7d\n    "

def cssTplB : String := "\n  </style>\n</head>\n<body>\n  <div class=\"preview-container\">\n    <h1>CSS Preview</h1>\n    <p>Your CSS styles are applied to this page.</p>\n  </div>\n  <script>window.parent.postMessage(\x7b type: \x27preview-ready\x27 \x7d, \x27*\x27);</script>\n</body>\n</html>"


/-- The generatePreviewHtml callback of PreviewEngine.tsx (lines 128-357).
attemptFix defaults to false at call sites that omit it; error is the error
state read by the closure.  A thrown exception is an Except.error. -/
def generatePreviewHtml (projectFiles : List CodeFile) (attemptFix : Bool)
    (error : Option String) : Except String String :=
  let htmlFile := projectFiles.find? (fun f => endsWithJS f.name ".html")
  let cssFile := projectFiles.find? (fun f => endsWithJS f.name ".css")
  let jsFile := projectFiles.find? (fun f =>
    endsWithJS f.name ".js" || endsWithJS f.name ".jsx" ||
    endsWithJS f.name ".ts" || endsWithJS f.name ".tsx")
  let restPart :=
    let cssContent := (cssFile.map (fun f => f.content)).getD ""
    let jsContent := (jsFile.map (fun f => f.content)).getD ""
    let isReact :=
      (match jsFile with
       | some f => endsWithJS f.name ".jsx"
       | none => false) ||
      (match jsFile with
       | some f => endsWithJS f.name ".tsx"
       | none => false) ||
      containsJS jsContent "import React" ||
      containsJS jsContent "useState" ||
      containsJS jsContent "useEffect" ||
      containsJS jsContent "<div" ||
      containsJS jsContent "export default" ||
      (containsJS jsContent "function " && containsJS jsContent "return")
    if isReact && !(jsContent == "") then
      match cleanReactCode jsContent with
      | Except.error e => Except.error e
      | Except.ok cleaned =>
        let cleanedCode :=
          if attemptFix && errTruthy error then autoFixCode cleaned (error.getD "")
          else cleaned
        Except.ok (reactTplA ++ cssContent ++ reactTplB ++ cleanedCode ++ reactTplC)
    else if !(jsContent == "") then
      Except.ok (plainTplA ++ cssContent ++ plainTplB ++ jsContent ++ plainTplC)
    else if !(cssContent == "") then
      Except.ok (cssTplA ++ cssContent ++ cssTplB)
    else Except.ok ""
  match htmlFile with
  | some hf =>
    if !(hf.content == "") then
      let html := hf.content
      let html :=
        match cssFile with
        | some cf =>
          if !(containsJS html cf.content) then
            replaceFirstJS html "</head>" ("<style>" ++ cf.content ++ "</style></head>")
          else html
        | none => html
      let html :=
        match jsFile with
        | some jf =>
          if !(containsJS html jf.content) then
            replaceFirstJS html "</body>" ("<script>" ++ jf.content ++ "</script></body>")
          else html
        | none => html
      Except.ok html
    else restPart
  | none => restPart

/-- The document string the mount effect (PreviewEngine.tsx lines 386-402)
assigns to the sandboxed iframe: synthesis with attemptFix true exactly when
auto-fix attempts have been made, against the recorded error state. -/
def mountedDocument (files : List CodeFile) (autoFixAttempts : Nat)
    (error : Option String) : Except String String :=
  generatePreviewHtml files (decide (0 < autoFixAttempts)) error

/-- The document string handleOpenExternal (PreviewEngine.tsx lines 410-416)
exports: generatePreviewHtml is called with attemptFix at its default false. -/
def externalDocument (files : List CodeFile) (error : Option String) :
    Except String String :=
  generatePreviewHtml files false error

end PreviewEngine


namespace codeExtractor

open Eternity

/-- A chat message as read by the extractor ({role, content}). -/
structure Message where
  role : String
  content : String
deriving Repr, DecidableEq

/-- One fenced-block match of the global code-block regex: the optional
language word (group 1), the raw body (group 2) and the match index. -/
structure RawBlock where
  lang : Option String
  body : String
  idx : Nat
deriving Repr, DecidableEq

/-- The three-backtick fence delimiter. -/
def fence3 : Chars := [btChar, btChar, btChar]

/-- Matcher for the part of the code-block regex after the opening fence:
an optional greedy word, then greedy whitespace backtracking into a newline
alternative (a match is only possible when that whitespace region contains a
newline, since the lazy body must still reach a closing fence), then the lazy
any-character body up to the first closing fence.  Returns the language word,
the body, and the consumed length. -/
def matchFenceBody (t : Chars) : Option (Option Chars × Chars × Nat) :=
  let word := t.takeWhile isWordChar
  let t1 := t.drop word.length
  let w := runLen isWsChar t1
  match lastNlIdx (t1.take w) with
  | none => none
  | some i =>
    let rest := t1.drop (i + 1)
    match firstSubIdxAux fence3 rest 0 with
    | none => none
    | some b =>
      some (if word.isEmpty then none else some word, rest.take b,
        word.length + i + 1 + b + 3)

/-- The exec loop of the global code-block regex: scan left to right, emit each
match and resume immediately after it. -/
def scanBlocksAux (fuel : Nat) (s : Chars) (pos : Nat) : List RawBlock :=
  match fuel, s with
  | 0, _ => []
  | _ + 1, [] => []
  | fuel + 1, c :: rest =>
    if fence3.isPrefixOf (c :: rest) then
      match matchFenceBody ((c :: rest).drop 3) with
      | some (lang, body, consumed) =>
        ⟨lang.map String.mk, String.mk body, pos⟩ ::
          scanBlocksAux fuel ((c :: rest).drop (3 + consumed)) (pos + 3 + consumed)
      | none => scanBlocksAux fuel rest (pos + 1)
    else scanBlocksAux fuel rest (pos + 1)

def scanBlocks (content : String) : List RawBlock :=
  scanBlocksAux (content.toList.length + 1) content.toList 0

/-- Filename character class of the first two inference patterns
([a-zA-Z0-9_\-./]). -/
def isFnameChar (c : Char) : Bool :=
  isAlnumChar c || c == '_' || c == '-' || c == '.' || c == '/'

/-- Filename character class of the third inference pattern (no dot or slash). -/
def isFnameCharNoDot (c : Char) : Bool := isAlnumChar c || c == '_' || c == '-'

/-- The group F-plus dot letters-plus of the inference patterns, with greedy
class-run backtracking: k counts the characters consumed by the leading class
run, tried from the longest; the dot must follow, then a maximal nonempty
letter run, then the pattern's continuation must accept the remainder. -/
def groupDotK (t : Chars) (sfx : Chars → Bool) : Nat → Option (Chars × Nat)
  | 0 => none
  | k + 1 =>
    let kk := k + 1
    match
      (if t.get? kk == some '.' then
        let tl := (t.drop (kk + 1)).takeWhile isAlphaChar
        if tl.isEmpty then none
        else if sfx (t.drop (kk + 1 + tl.length)) then
          some (t.take kk ++ '.' :: tl, kk + 1 + tl.length)
        else none
      else none) with
    | some r => some r
    | none => groupDotK t sfx k

def groupDot (F : Char → Bool) (sfx : Chars → Bool) (t : Chars) : Option (Chars × Nat) :=
  let rl := runLen F t
  if rl = 0 then none else groupDotK t sfx rl

/-- Case-insensitive literal match (the literal is given lower-case). -/
def ciLitAt (lit : String) (t : Chars) : Bool :=
  lit.toList.isPrefixOf ((t.take lit.toList.length).map lowerChar)

/-- The keyword alternation of the first inference pattern, returning the
matched keyword length. -/
def kwProbe (t : Chars) : Option Nat :=
  if ciLitAt "file" t then some 4
  else if ciLitAt "create" t then some 6
  else if ciLitAt "update" t then some 6
  else if ciLitAt "in" t then some 2
  else none

/-- Probe of inference pattern 1: keyword, whitespace-star, optional colon or
backtick, whitespace-star, then the filename group. -/
def patAProbe (t : Chars) : Option Chars :=
  match kwProbe t with
  | none => none
  | some k =>
    let r := t.drop k
    let w1 := runLen isWsChar r
    let r1 := r.drop w1
    let r2 :=
      match r1 with
      | c :: rr => if c == ':' || c == btChar then rr else r1
      | [] => r1
    let w2 := runLen isWsChar r2
    (groupDot isFnameChar (fun _ => true) (r2.drop w2)).map (fun p => p.1)

/-- Probe of inference pattern 2: backtick, filename group, closing backtick. -/
def patBProbe (t : Chars) : Option Chars :=
  match t with
  | c :: r =>
    if c == btChar then
      (groupDot isFnameChar
        (fun rest => match rest with | d :: _ => d == btChar | [] => false) r).map
        (fun p => p.1)
    else none
  | [] => none

/-- End-of-line position test: end of string or immediately before a newline. -/
def eolAt (r : Chars) : Bool :=
  match r with
  | [] => true
  | c :: _ => c == '\n'

/-- The trailing whitespace-star colon-opt whitespace-star dollar of inference
pattern 3, as a satisfiability check over all backtracking splits. -/
def wsColonWsEolB (r : Chars) : Bool :=
  let v := runLen isWsChar r
  (List.range (v + 1)).any (fun k =>
    let r1 := r.drop k
    eolAt r1 ||
      (match r1 with
       | c :: r2 =>
         if c == ':' then
           let v2 := runLen isWsChar r2
           (List.range (v2 + 1)).any (fun k2 => eolAt (r2.drop k2))
         else false
       | [] => false))

/-- Probe of inference pattern 3: filename group (no slash or dot in the stem
class) at a line-end position, optionally followed by a colon. -/
def patCProbe (t : Chars) : Option Chars :=
  (groupDot isFnameCharNoDot wsColonWsEolB t).map (fun p => p.1)

/-- The part after the last slash (match[1].split('/') last element). -/
def lastPathPart (g : Chars) : Chars :=
  (g.reverse.takeWhile (fun c => !(c == '/'))).reverse

/-- The extractFilename helper of the extractor (part_010 lines 39-60): search
the 200 characters before the fence for the three patterns in order; on a
match return the last path component. -/
def extractFilename (content : Chars) (codeBlockIndex : Nat) : Option Chars :=
  let beforeBlock := (content.take codeBlockIndex).drop (codeBlockIndex - 200)
  match scanFirst patAProbe beforeBlock with
  | some g => some (lastPathPart g)
  | none =>
    match scanFirst patBProbe beforeBlock with
    | some g => some (lastPathPart g)
    | none =>
      match scanFirst patCProbe beforeBlock with
      | some g => some (lastPathPart g)
      | none => none

/-- ASCII toLowerCase on strings. -/
def lowerS (s : String) : String := String.mk (s.toList.map lowerChar)

/-- The language-to-extension table of getExtension (part_010 lines 62-80). -/
def extTable : List (String × String) :=
  [("typescript", "tsx"), ("tsx", "tsx"), ("ts", "ts"), ("javascript", "js"),
   ("jsx", "jsx"), ("js", "js"), ("python", "py"), ("css", "css"),
   ("html", "html"), ("json", "json"), ("sql", "sql"), ("bash", "sh"),
   ("shell", "sh"), ("markdown", "md")]

/-- getExtension: look the lower-cased language up, defaulting to txt. -/
def getExtension (language : String) : String :=
  (extTable.lookup (lowerS language)).getD "txt"

/-- The language-normalization table of mapLanguage (part_010 lines 82-93). -/
def langTable : List (String × String) :=
  [("ts", "typescript"), ("tsx", "typescript"), ("js", "javascript"),
   ("jsx", "javascript"), ("py", "python"), ("sh", "shell"), ("bash", "shell")]

/-- mapLanguage: look the lower-cased language up, defaulting to the
lower-cased language itself. -/
def mapLanguage (language : String) : String :=
  (langTable.lookup (lowerS language)).getD (lowerS language)

/-- One resolved block of an extraction run (instrumentation recording how the
loop body of extractCodeBlocks resolved each nonempty block). -/
structure Resolved where
  name : String
  rawLang : String
  content : String
  inferred : Bool
  counterBefore : Nat
deriving Repr, DecidableEq

/-- Extraction state: the files accumulated so far, the fileCounter, and the
trace of resolved blocks. -/
structure ExtState where
  files : List CodeFile
  counter : Nat
  trace : List Resolved
deriving Repr, DecidableEq

/-- The findIndex-then-assign-or-push dedup of the loop body: replace the first
file of the same name in place, or append. -/
def upsert : List CodeFile → CodeFile → List CodeFile
  | [], f => [f]
  | g :: t, f => if g.name == f.name then f :: t else g :: upsert t f

/-- The loop body of extractCodeBlocks for one regex match. -/
def extractStep (msgContent : String) (st : ExtState) (b : RawBlock) : ExtState :=
  let language := b.lang.getD "text"
  let content := String.mk (trimChars b.body.toList)
  if content == "" then st
  else
    let inferredName := (extractFilename msgContent.toList b.idx).map String.mk
    let filename :=
      inferredName.getD ("code" ++ Nat.repr st.counter ++ "." ++ getExtension language)
    let file : CodeFile := ⟨filename, mapLanguage language, content⟩
    { files := upsert st.files file
      counter :=
        if st.files.any (fun f => f.name == filename) then st.counter else st.counter + 1
      trace := st.trace ++ [⟨filename, language, content, inferredName.isSome, st.counter⟩] }

/-- Per-message processing: only assistant messages are scanned. -/
def processMessage (st : ExtState) (m : Message) : ExtState :=
  if m.role == "assistant" then (scanBlocks m.content).foldl (extractStep m.content) st
  else st

/-- The whole extraction run over a message list, with instrumentation. -/
def runExtract (messages : List Message) : ExtState :=
  messages.foldl processMessage ⟨[], 1, []⟩

/-- The extractCodeBlocks function of the extractor (part_010 lines 5-37). -/
def extractCodeBlocks (messages : List Message) : List CodeFile :=
  (runExtract messages).files

/-- The resolution trace of an extraction run. -/
def extractTrace (messages : List Message) : List Resolved :=
  (runExtract messages).trace

end codeExtractor


namespace PreviewEngine

/-- The retry ceiling maxAutoFixAttempts of PreviewEngine.tsx line 41. -/
def maxAutoFixAttempts : Nat := 5

/-- The controller state owned by the PreviewEngine component that the message
handler reads and writes: the ready flag, the recorded error, the auto-fix
attempt counter, the iframe remount key (the generation), and the live flag. -/
structure EngineState where
  isReady : Bool
  error : Option String
  autoFixAttempts : Nat
  key : Nat
  isLive : Bool
deriving Repr, DecidableEq

/-- The data payload of a window message: a preview-ready notification, a
preview-error notification carrying the error text, or anything else. -/
inductive PreviewMsg where
  | ready : PreviewMsg
  | previewError : String → PreviewMsg
deriving Repr, DecidableEq

/-- A message event as seen by the handler.  sourceGeneration records which
iframe generation posted it; the handler of PreviewEngine.tsx never reads the
event source, only event.data.  data is none for messages whose type is
neither preview-ready nor preview-error. -/
structure MsgEvent where
  sourceGeneration : Nat
  data : Option PreviewMsg
deriving Repr, DecidableEq

/-- The handleMessage listener of PreviewEngine.tsx (lines 360-383).  Returns
the updated state and whether a re-synthesis (the deferred setKey) was
scheduled. -/
def handleMessage (s : EngineState) (e : MsgEvent) : EngineState × Bool :=
  match e.data with
  | some PreviewMsg.ready =>
    ({ s with isReady := true, error := none, autoFixAttempts := 0 }, false)
  | some (PreviewMsg.previewError m) =>
    if s.autoFixAttempts < maxAutoFixAttempts && s.isLive then
      ({ s with error := some m, autoFixAttempts := s.autoFixAttempts + 1 }, true)
    else ({ s with error := some m }, false)
  | none => (s, false)

/-- The deferred setKey of the scheduled retry timer. -/
def applyScheduledRetry (s : EngineState) : EngineState := { s with key := s.key + 1 }

/-- The handleRefresh handler of PreviewEngine.tsx (lines 404-408). -/
def handleRefresh (s : EngineState) : EngineState :=
  { s with autoFixAttempts := 0, error := none, key := s.key + 1 }

/-- One full error round: the sandbox of generation g posts preview-error with
message m, and the scheduled retry (if any) fires. -/
def errorRound (g : Nat) (m : String) (s : EngineState) : EngineState :=
  let r := handleMessage s ⟨g, some (PreviewMsg.previewError m)⟩
  if r.2 then applyScheduledRetry r.1 else r.1

end PreviewEngine


namespace codeExtractor

open Eternity

/-- The file a resolved block contributes. -/
def resolvedFile (r : Resolved) : CodeFile := ⟨r.name, mapLanguage r.rawLang, r.content⟩

/-- Strict left-biased choice on options. -/
def optOr (a b : Option α) : Option α :=
  match a with
  | some x => some x
  | none => b

/-- First-seen deduplication of a name list, the ordering the extractor's
in-place overwrite preserves. -/
def dedupStep (acc : List String) (n : String) : List String :=
  if acc.any (fun m => m == n) then acc else acc ++ [n]

def dedupFS (l : List String) : List String := l.foldl dedupStep []

theorem upsert_names_mem (fs : List CodeFile) (f : CodeFile)
    (h : fs.any (fun g => g.name == f.name) = true) :
    (upsert fs f).map (fun g => g.name) = fs.map (fun g => g.name) := by
  induction fs with
  | nil => simp at h
  | cons g t ih =>
    by_cases hg : g.name = f.name
    · simp [upsert, hg]
    · have hb : (g.name == f.name) = false := by simpa using hg
      have ht : t.any (fun g => g.name == f.name) = true := by
        simp only [List.any_cons, hb, Bool.false_or] at h
        exact h
      simp [upsert, hb, ih ht]

theorem upsert_names_new (fs : List CodeFile) (f : CodeFile)
    (h : fs.any (fun g => g.name == f.name) = false) :
    (upsert fs f).map (fun g => g.name) = fs.map (fun g => g.name) ++ [f.name] := by
  induction fs with
  | nil => simp [upsert]
  | cons g t ih =>
    simp only [List.any_cons, Bool.or_eq_false_iff] at h
    simp [upsert, h.1, ih h.2]

theorem upsert_length_mem (fs : List CodeFile) (f : CodeFile)
    (h : fs.any (fun g => g.name == f.name) = true) :
    (upsert fs f).length = fs.length := by
  have h2 := congrArg List.length (upsert_names_mem fs f h)
  simpa using h2

theorem upsert_length_new (fs : List CodeFile) (f : CodeFile)
    (h : fs.any (fun g => g.name == f.name) = false) :
    (upsert fs f).length = fs.length + 1 := by
  have h2 := congrArg List.length (upsert_names_new fs f h)
  simpa using h2

theorem upsert_find (fs : List CodeFile) (f : CodeFile) (n : String) :
    (upsert fs f).find? (fun g => g.name == n) =
      if f.name = n then some f else fs.find? (fun g => g.name == n) := by
  induction fs with
  | nil =>
    by_cases h : f.name = n
    · rw [if_pos h]
      exact List.find?_cons_of_pos _ (by simpa using h)
    · rw [if_neg h]
      simp only [upsert]
      rw [List.find?_cons_of_neg _ (by simpa using h)]
  | cons g t ih =>
    by_cases hg : g.name = f.name
    · have hup : upsert (g :: t) f = f :: t := by simp [upsert, hg]
      rw [hup]
      by_cases h : f.name = n
      · rw [if_pos h]
        exact List.find?_cons_of_pos _ (by simpa using h)
      · rw [if_neg h, List.find?_cons_of_neg _ (by simpa using h),
          List.find?_cons_of_neg _ (by simpa using (show ¬ g.name = n by rw [hg]; exact h))]
    · have hb : (g.name == f.name) = false := by simpa using hg
      have hup : upsert (g :: t) f = g :: upsert t f := by simp [upsert, hb]
      rw [hup]
      by_cases h2 : g.name = n
      · have h3 : ¬ f.name = n := fun he => hg (by rw [h2, he])
        rw [if_neg h3, List.find?_cons_of_pos _ (by simpa using h2),
          List.find?_cons_of_pos _ (by simpa using h2)]
      · rw [List.find?_cons_of_neg _ (by simpa using h2), ih]
        by_cases h : f.name = n
        · rw [if_pos h, if_pos h]
        · rw [if_neg h, if_neg h, List.find?_cons_of_neg _ (by simpa using h2)]

theorem find?_append_opt (l1 l2 : List α) (p : α → Bool) :
    (l1 ++ l2).find? p = optOr (l1.find? p) (l2.find? p) := by
  induction l1 with
  | nil => simp [optOr]
  | cons a t ih =>
    by_cases h : p a = true
    · rw [List.cons_append, List.find?_cons_of_pos _ h, List.find?_cons_of_pos _ h]
      rfl
    · rw [List.cons_append, List.find?_cons_of_neg _ (by simpa using h),
        List.find?_cons_of_neg _ (by simpa using h), ih]

theorem optOr_assoc (a b c : Option α) :
    optOr (optOr a b) c = optOr a (optOr b c) := by
  cases a <;> simp [optOr]

theorem upsert_names_dedupStep (fs : List CodeFile) (f : CodeFile) :
    (upsert fs f).map (fun g => g.name) =
      dedupStep (fs.map (fun g => g.name)) f.name := by
  have hmapany : (fs.map (fun g => g.name)).any (fun m => m == f.name) =
      fs.any (fun g => g.name == f.name) := by
    induction fs with
    | nil => rfl
    | cons a t ih => simp only [List.map_cons, List.any_cons, ih]
  unfold dedupStep
  cases ha : fs.any (fun g => g.name == f.name) with
  | true => rw [upsert_names_mem fs f ha, if_pos (by rw [hmapany]; exact ha)]
  | false =>
    rw [upsert_names_new fs f ha, if_neg]
    rw [hmapany, ha]
    simp

theorem dedupFold_names (L : List CodeFile) :
    ∀ fs, ((L.foldl upsert fs).map (fun g => g.name)) =
      (L.map (fun g => g.name)).foldl dedupStep (fs.map (fun g => g.name)) := by
  induction L with
  | nil => intro fs; simp
  | cons x t ih =>
    intro fs
    simp only [List.foldl_cons, List.map_cons]
    rw [ih (upsert fs x), upsert_names_dedupStep]

theorem dedupFold_find (L : List CodeFile) (n : String) :
    ∀ fs, (L.foldl upsert fs).find? (fun g => g.name == n) =
      optOr (L.reverse.find? (fun g => g.name == n)) (fs.find? (fun g => g.name == n)) := by
  induction L with
  | nil => intro fs; simp [optOr]
  | cons x t ih =>
    intro fs
    simp only [List.foldl_cons, List.reverse_cons]
    rw [ih (upsert fs x), find?_append_opt, optOr_assoc]
    congr 1
    rw [upsert_find]
    by_cases h : x.name = n
    · rw [if_pos h, List.find?_cons_of_pos _ (by simpa using h)]
      rfl
    · rw [if_neg h, List.find?_cons_of_neg _ (by simpa using h)]
      rfl

theorem dedup_foldl_nodup (l : List String) :
    ∀ acc : List String, acc.Nodup → (l.foldl dedupStep acc).Nodup := by
  induction l with
  | nil => intro acc h; simpa using h
  | cons n t ih =>
    intro acc h
    simp only [List.foldl_cons]
    apply ih
    unfold dedupStep
    cases ha : acc.any (fun m => m == n) with
    | true => simpa using h
    | false =>
      have hn : n ∉ acc := by
        intro hmem
        have hcontra : acc.any (fun m => m == n) = true := by
          simp only [List.any_eq_true]
          exact ⟨n, hmem, by simp⟩
        rw [ha] at hcontra
        cases hcontra
      rw [if_neg Bool.false_ne_true]
      rw [List.nodup_append]
      refine ⟨h, List.nodup_singleton n, ?_⟩
      intro a ha2 hb
      rw [List.mem_singleton] at hb
      exact hn (hb ▸ ha2)

theorem mem_dedup_foldl (l : List String) (a : String) :
    ∀ acc : List String, a ∈ l.foldl dedupStep acc ↔ a ∈ acc ∨ a ∈ l := by
  induction l with
  | nil => intro acc; simp
  | cons n t ih =>
    intro acc
    simp only [List.foldl_cons, ih, List.mem_cons]
    unfold dedupStep
    cases ha : acc.any (fun m => m == n) with
    | true =>
      have hn : n ∈ acc := by
        rcases List.any_eq_true.mp ha with ⟨m, hm, he⟩
        have hmn : m = n := by simpa using he
        rwa [hmn] at hm
      rw [if_pos rfl]
      constructor
      · rintro (h | h)
        · exact Or.inl h
        · exact Or.inr (Or.inr h)
      · rintro (h | h | h)
        · exact Or.inl h
        · exact Or.inl (h ▸ hn)
        · exact Or.inr h
    | false =>
      rw [if_neg Bool.false_ne_true]
      simp only [List.mem_append, List.mem_singleton]
      tauto

theorem nodup_filter_one (n : String) (l : List String) (hd : l.Nodup) (hm : n ∈ l) :
    (l.filter (fun m => m == n)).length = 1 := by
  induction l with
  | nil => cases hm
  | cons m t ih =>
    rcases List.mem_cons.mp hm with he | ht
    · subst he
      have hnt : n ∉ t := (List.nodup_cons.mp hd).1
      have hft : t.filter (fun x => x == n) = [] := by
        rw [List.filter_eq_nil]
        intro a ha
        simp only [beq_iff_eq]
        intro hcontra
        exact hnt (hcontra ▸ ha)
      rw [List.filter_cons_of_pos (by simp), hft]
      rfl
    · have hmn : ¬ (m == n) = true := by
        simp only [beq_iff_eq]
        intro he
        exact (List.nodup_cons.mp hd).1 (he ▸ ht)
      rw [List.filter_cons_of_neg (by simpa using hmn)]
      exact ih (List.nodup_cons.mp hd).2 ht

end codeExtractor

namespace codeExtractor

open Eternity

/-- Run invariant of extractCodeBlocks: the file list is the pure first-match
upsert fold of the resolution trace, the fileCounter always exceeds the number
of extracted files by exactly one, and every synthesized name has the shape
code-counter-dot-extension recorded at its resolution time. -/
def stInv (st : ExtState) : Prop :=
  st.files = (st.trace.map resolvedFile).foldl upsert [] ∧
  st.counter = st.files.length + 1 ∧
  ∀ r ∈ st.trace, r.inferred = false →
    r.name = "code" ++ Nat.repr r.counterBefore ++ "." ++ getExtension r.rawLang

theorem extractStep_inv (c : String) (st : ExtState) (b : RawBlock)
    (h : stInv st) : stInv (extractStep c st b) := by
  obtain ⟨h1, h2, h3⟩ := h
  simp only [extractStep]
  split
  · exact ⟨h1, h2, h3⟩
  · refine ⟨?_, ?_, ?_⟩
    · simp only [List.map_append, List.foldl_append, List.map_cons, List.map_nil,
        List.foldl_cons, List.foldl_nil]
      rw [← h1]
      rfl
    · dsimp only
      generalize ((extractFilename c.toList b.idx).map String.mk).getD
          ("code" ++ Nat.repr st.counter ++ "." ++ getExtension (b.lang.getD "text")) = fname
      cases ha : st.files.any (fun f => f.name == fname) with
      | true =>
        rw [if_pos rfl, upsert_length_mem _ _ ha]
        exact h2
      | false =>
        rw [if_neg Bool.false_ne_true, upsert_length_new _ _ ha]
        omega
    · intro r hr hinf
      rcases List.mem_append.mp hr with hold | hnew
      · exact h3 r hold hinf
      · rw [List.mem_singleton] at hnew
        subst hnew
        simp only at hinf
        cases hio : (extractFilename c.toList b.idx).map String.mk with
        | some v => rw [hio] at hinf; cases hinf
        | none => simp [hio]

theorem foldl_inv {α : Type} {P : ExtState → Prop} (f : ExtState → α → ExtState)
    (hf : ∀ st b, P st → P (f st b)) :
    ∀ (L : List α) (st : ExtState), P st → P (L.foldl f st) := by
  intro L
  induction L with
  | nil => intro st h; exact h
  | cons x t ih => intro st h; exact ih (f st x) (hf st x h)

theorem processMessage_inv (st : ExtState) (m : Message) (h : stInv st) :
    stInv (processMessage st m) := by
  unfold processMessage
  split
  · exact foldl_inv _ (extractStep_inv m.content) _ st h
  · exact h

theorem runExtract_inv (messages : List Message) : stInv (runExtract messages) := by
  unfold runExtract
  refine foldl_inv processMessage (fun st m h => processMessage_inv st m h) messages _ ?_
  refine ⟨rfl, rfl, ?_⟩
  intro r hr
  cases hr

end codeExtractor

namespace codeExtractor

open Eternity

theorem optOr_none (a : Option α) : optOr a none = a := by cases a <;> rfl

theorem find?_map_name (L : List Resolved) (n : String) :
    (L.map resolvedFile).find? (fun g => g.name == n) =
      (L.find? (fun r => r.name == n)).map resolvedFile := by
  induction L with
  | nil => rfl
  | cons r t ih =>
    by_cases h : r.name = n
    · rw [List.map_cons, List.find?_cons_of_pos _ (by simpa [resolvedFile] using h),
        List.find?_cons_of_pos _ (by simpa using h)]
      rfl
    · rw [List.map_cons, List.find?_cons_of_neg _ (by simpa [resolvedFile] using h),
        List.find?_cons_of_neg _ (by simpa using h), ih]

theorem filter_name_length (E : List CodeFile) (n : String) :
    (E.filter (fun f => f.name == n)).length =
      ((E.map (fun g => g.name)).filter (fun m => m == n)).length := by
  induction E with
  | nil => rfl
  | cons f t ih =>
    by_cases h : f.name = n
    · rw [List.filter_cons_of_pos (by simpa using h), List.map_cons,
        List.filter_cons_of_pos (by simpa using h)]
      simp only [List.length_cons, ih]
    · rw [List.filter_cons_of_neg (by simpa using h), List.map_cons,
        List.filter_cons_of_neg (by simpa using h), ih]

end codeExtractor

open Eternity

/-- C1: for every preview session with isLive true, each preview-error received
while autoFixAttempts is below maxAutoFixAttempts records the error, increments
the counter and schedules exactly one re-synthesis; once the counter has
reached maxAutoFixAttempts a preview-error records the error but schedules no
re-synthesis; after exactly maxAutoFixAttempts error rounds starting from a
fresh session the counter equals the ceiling and the next error schedules
nothing; a manual refresh resets the counter to zero and clears the error. -/
theorem c1_recovery_bound :
    (∀ (s : PreviewEngine.EngineState) (g : Nat) (m : String),
      s.isLive = true → s.autoFixAttempts < PreviewEngine.maxAutoFixAttempts →
      PreviewEngine.handleMessage s ⟨g, some (PreviewEngine.PreviewMsg.previewError m)⟩ =
        ({ s with error := some m, autoFixAttempts := s.autoFixAttempts + 1 }, true)) ∧
    (∀ (s : PreviewEngine.EngineState) (g : Nat) (m : String),
      PreviewEngine.maxAutoFixAttempts ≤ s.autoFixAttempts →
      PreviewEngine.handleMessage s ⟨g, some (PreviewEngine.PreviewMsg.previewError m)⟩ =
        ({ s with error := some m }, false)) ∧
    (∀ (s : PreviewEngine.EngineState) (g : Nat) (m : String),
      s.isLive = true → s.autoFixAttempts = 0 →
      (Nat.iterate (PreviewEngine.errorRound g m) PreviewEngine.maxAutoFixAttempts
          s).autoFixAttempts = PreviewEngine.maxAutoFixAttempts ∧
      (PreviewEngine.handleMessage
        (Nat.iterate (PreviewEngine.errorRound g m) PreviewEngine.maxAutoFixAttempts s)
        ⟨g, some (PreviewEngine.PreviewMsg.previewError m)⟩).2 = false) ∧
    (∀ s : PreviewEngine.EngineState,
      (PreviewEngine.handleRefresh s).autoFixAttempts = 0 ∧
      (PreviewEngine.handleRefresh s).error = none) := by
  refine ⟨?_, ?_, ?_, ?_⟩
  · intro s g m h1 h2
    simp [PreviewEngine.handleMessage, h1, h2]
  · intro s g m h2
    have hlt : ¬ s.autoFixAttempts < PreviewEngine.maxAutoFixAttempts := by omega
    simp [PreviewEngine.handleMessage, hlt]
  · intro s g m h1 h0
    simp [Nat.iterate, PreviewEngine.errorRound, PreviewEngine.handleMessage,
      PreviewEngine.applyScheduledRetry, PreviewEngine.maxAutoFixAttempts, h1, h0]
  · intro s
    simp [PreviewEngine.handleRefresh]

/-- Witness for C1 at a concrete fresh live session and a concrete exhausted
session. -/
theorem c1_recovery_bound_witness :
    PreviewEngine.handleMessage ⟨false, none, 0, 0, true⟩
        ⟨0, some (PreviewEngine.PreviewMsg.previewError "boom")⟩ =
      (⟨false, some "boom", 1, 0, true⟩, true) ∧
    PreviewEngine.handleMessage ⟨false, some "x", 5, 9, true⟩
        ⟨0, some (PreviewEngine.PreviewMsg.previewError "boom")⟩ =
      (⟨false, some "boom", 5, 9, true⟩, false) ∧
    (Nat.iterate (PreviewEngine.errorRound 0 "boom") PreviewEngine.maxAutoFixAttempts
        ⟨false, none, 0, 0, true⟩).autoFixAttempts = PreviewEngine.maxAutoFixAttempts ∧
    (PreviewEngine.handleMessage
      (Nat.iterate (PreviewEngine.errorRound 0 "boom") PreviewEngine.maxAutoFixAttempts
        ⟨false, none, 0, 0, true⟩)
      ⟨0, some (PreviewEngine.PreviewMsg.previewError "boom")⟩).2 = false ∧
    (PreviewEngine.handleRefresh ⟨false, some "x", 3, 2, true⟩).autoFixAttempts = 0 ∧
    (PreviewEngine.handleRefresh ⟨false, some "x", 3, 2, true⟩).error = none :=
  ⟨c1_recovery_bound.1 ⟨false, none, 0, 0, true⟩ 0 "boom" rfl (by decide),
   c1_recovery_bound.2.1 ⟨false, some "x", 5, 9, true⟩ 0 "boom" (by decide),
   (c1_recovery_bound.2.2.1 ⟨false, none, 0, 0, true⟩ 0 "boom" rfl rfl).1,
   (c1_recovery_bound.2.2.1 ⟨false, none, 0, 0, true⟩ 0 "boom" rfl rfl).2,
   (c1_recovery_bound.2.2.2 ⟨false, some "x", 3, 2, true⟩).1,
   (c1_recovery_bound.2.2.2 ⟨false, some "x", 3, 2, true⟩).2⟩

/-- C2 counterexample: the handler of PreviewEngine.tsx never inspects the
originating host of a message; a preview-ready notification tagged with a
generation strictly below the session's current key still flips the ready flag
and resets the session, so a stale-host message does change the session state,
contrary to the claim. -/
theorem c2_counterexample :
    (⟨1, some PreviewEngine.PreviewMsg.ready⟩ : PreviewEngine.MsgEvent).sourceGeneration <
      (⟨false, some "x", 2, 5, true⟩ : PreviewEngine.EngineState).key ∧
    ¬ ((PreviewEngine.handleMessage ⟨false, some "x", 2, 5, true⟩
        ⟨1, some PreviewEngine.PreviewMsg.ready⟩).1 =
      (⟨false, some "x", 2, 5, true⟩ : PreviewEngine.EngineState)) := by
  exact ⟨by decide, by decide⟩

/-- C2 amended: the message handler is generation-blind — its result depends
only on the event data, never on the originating host — and an event whose
data is neither preview-ready nor preview-error leaves the state unchanged and
schedules nothing.  Staleness protection comes only from tearing the previous
iframe down on remount, not from any generation comparison in handleMessage. -/
theorem c2_amended :
    (∀ (s : PreviewEngine.EngineState) (e1 e2 : PreviewEngine.MsgEvent),
      e1.data = e2.data →
      PreviewEngine.handleMessage s e1 = PreviewEngine.handleMessage s e2) ∧
    (∀ (s : PreviewEngine.EngineState) (e : PreviewEngine.MsgEvent),
      e.data = none → PreviewEngine.handleMessage s e = (s, false)) := by
  constructor
  · intro s e1 e2 h
    unfold PreviewEngine.handleMessage
    rw [h]
  · intro s e h
    unfold PreviewEngine.handleMessage
    rw [h]

/-- Witness for C2 amended at concrete events of different generations. -/
theorem c2_amended_witness :
    PreviewEngine.handleMessage ⟨false, none, 0, 7, true⟩
        ⟨2, some PreviewEngine.PreviewMsg.ready⟩ =
      PreviewEngine.handleMessage ⟨false, none, 0, 7, true⟩
        ⟨9, some PreviewEngine.PreviewMsg.ready⟩ ∧
    PreviewEngine.handleMessage ⟨false, none, 0, 7, true⟩ ⟨2, none⟩ =
      (⟨false, none, 0, 7, true⟩, false) :=
  ⟨c2_amended.1 ⟨false, none, 0, 7, true⟩ ⟨2, some PreviewEngine.PreviewMsg.ready⟩
      ⟨9, some PreviewEngine.PreviewMsg.ready⟩ rfl,
   c2_amended.2 ⟨false, none, 0, 7, true⟩ ⟨2, none⟩ rfl⟩

/-- C3: whenever two or more nonempty fenced blocks of a message list resolve
to the same filename, the extracted file list contains exactly one file of
that name, its content is the trimmed body of the last such block, and the
output name ordering is the first-seen deduplication of the resolution
ordering, so the surviving entry sits at the position of the first
occurrence. -/
theorem c3_dedup_overwrite (messages : List codeExtractor.Message) (n : String)
    (h : 2 ≤ ((codeExtractor.extractTrace messages).filter
      (fun r => r.name == n)).length) :
    ((codeExtractor.extractCodeBlocks messages).filter
      (fun f => f.name == n)).length = 1 ∧
    ((codeExtractor.extractCodeBlocks messages).find? (fun f => f.name == n)).map
      (fun f => f.content) =
      ((codeExtractor.extractTrace messages).reverse.find? (fun r => r.name == n)).map
        (fun r => r.content) ∧
    (codeExtractor.extractCodeBlocks messages).map (fun f => f.name) =
      codeExtractor.dedupFS
        ((codeExtractor.extractTrace messages).map (fun r => r.name)) := by
  obtain ⟨h1, _h2, _h3⟩ := codeExtractor.runExtract_inv messages
  have hfiles : codeExtractor.extractCodeBlocks messages =
      ((codeExtractor.extractTrace messages).map codeExtractor.resolvedFile).foldl
        codeExtractor.upsert [] := h1
  have hnames : (codeExtractor.extractCodeBlocks messages).map (fun g => g.name) =
      codeExtractor.dedupFS
        ((codeExtractor.extractTrace messages).map (fun r => r.name)) := by
    rw [hfiles, codeExtractor.dedupFold_names]
    unfold codeExtractor.dedupFS
    rw [List.map_map]
    rfl
  refine ⟨?_, ?_, hnames⟩
  · have hmem : n ∈ (codeExtractor.extractTrace messages).map (fun r => r.name) := by
      have hpos : 0 < ((codeExtractor.extractTrace messages).filter
          (fun r => r.name == n)).length := by omega
      rw [List.length_pos] at hpos
      obtain ⟨r, hr⟩ := List.exists_mem_of_ne_nil _ hpos
      have hrT := (List.mem_filter.mp hr).1
      have hrn : (r.name == n) = true := (List.mem_filter.mp hr).2
      exact List.mem_map.mpr ⟨r, hrT, by simpa using hrn⟩
    have hmem2 : n ∈ codeExtractor.dedupFS
        ((codeExtractor.extractTrace messages).map fun r => r.name) := by
      unfold codeExtractor.dedupFS
      rw [codeExtractor.mem_dedup_foldl]
      exact Or.inr hmem
    have hnd : (codeExtractor.dedupFS
        ((codeExtractor.extractTrace messages).map fun r => r.name)).Nodup :=
      codeExtractor.dedup_foldl_nodup _ [] List.nodup_nil
    have hone := codeExtractor.nodup_filter_one n _ hnd hmem2
    rw [codeExtractor.filter_name_length, hnames]
    exact hone
  · have hf := codeExtractor.dedupFold_find
      ((codeExtractor.extractTrace messages).map codeExtractor.resolvedFile) n []
    simp only [List.find?_nil, codeExtractor.optOr_none] at hf
    rw [← List.map_reverse] at hf
    rw [codeExtractor.find?_map_name] at hf
    rw [hfiles, hf]
    cases (codeExtractor.extractTrace messages).reverse.find? (fun r => r.name == n) <;> rfl

/-- Witness for C3: a message whose two fenced blocks are both inferred as
App.tsx; the single surviving file carries the second block's body. -/
theorem c3_dedup_overwrite_witness :
    2 ≤ ((codeExtractor.extractTrace
        [⟨"assistant",
          "App.tsx:\n\x60\x60\x60tsx\nA\n\x60\x60\x60\nApp.tsx:\n\x60\x60\x60tsx\nB\n\x60\x60\x60"⟩]).filter
      (fun r => r.name == "App.tsx")).length ∧
    (((codeExtractor.extractCodeBlocks
        [⟨"assistant",
          "App.tsx:\n\x60\x60\x60tsx\nA\n\x60\x60\x60\nApp.tsx:\n\x60\x60\x60tsx\nB\n\x60\x60\x60"⟩]).filter
      (fun f => f.name == "App.tsx")).length = 1 ∧
    ((codeExtractor.extractCodeBlocks
        [⟨"assistant",
          "App.tsx:\n\x60\x60\x60tsx\nA\n\x60\x60\x60\nApp.tsx:\n\x60\x60\x60tsx\nB\n\x60\x60\x60"⟩]).find?
        (fun f => f.name == "App.tsx")).map (fun f => f.content) =
      ((codeExtractor.extractTrace
        [⟨"assistant",
          "App.tsx:\n\x60\x60\x60tsx\nA\n\x60\x60\x60\nApp.tsx:\n\x60\x60\x60tsx\nB\n\x60\x60\x60"⟩]).reverse.find?
        (fun r => r.name == "App.tsx")).map (fun r => r.content) ∧
    (codeExtractor.extractCodeBlocks
        [⟨"assistant",
          "App.tsx:\n\x60\x60\x60tsx\nA\n\x60\x60\x60\nApp.tsx:\n\x60\x60\x60tsx\nB\n\x60\x60\x60"⟩]).map
      (fun f => f.name) =
      codeExtractor.dedupFS
        ((codeExtractor.extractTrace
          [⟨"assistant",
            "App.tsx:\n\x60\x60\x60tsx\nA\n\x60\x60\x60\nApp.tsx:\n\x60\x60\x60tsx\nB\n\x60\x60\x60"⟩]).map
          (fun r => r.name))) :=
  ⟨by decide,
   c3_dedup_overwrite
     [⟨"assistant",
       "App.tsx:\n\x60\x60\x60tsx\nA\n\x60\x60\x60\nApp.tsx:\n\x60\x60\x60tsx\nB\n\x60\x60\x60"⟩]
     "App.tsx" (by decide)⟩

/-- C4 (code bug): synthesis is not exception-free.  For a component-style file
whose content declares a capitalized component other than App, the funcMatch
branch of PreviewEngine.cleanReactCode builds the doubly-escaped pattern
caret-function backslash-backslash-s-plus name backslash-backslash-s-star
backslash-backslash-lparen, whose final parenthesis is unescaped and opens an
unterminated group, so new RegExp throws a SyntaxError and generatePreviewHtml
propagates it instead of returning a string. -/
theorem c4_synthesis_throws :
    PreviewEngine.generatePreviewHtml
      [⟨"App.jsx", "javascript", "function Widget()\x7b return <div/>; \x7d"⟩] false none =
      Except.error PreviewEngine.regexErrorMsg := by
  decide

/-- C5 counterexample: on the spec's exact single-line input, stripping is
anchored to line starts, so the mid-line export statement survives: the
normalizer's output still contains the statement export default Widget;
verbatim, hence an export keyword remains as a statement prefix and the
identifier reference Widget is not renamed to the canonical name. -/
theorem c5_counterexample :
    containsJS
      (LivePreview.cleanReactCode
        "function Widget()\x7b return <div/>; \x7d export default Widget;")
      "export default Widget;" = true ∧
    containsJS
      (LivePreview.cleanReactCode
        "function Widget()\x7b return <div/>; \x7d export default Widget;")
      "Widget" = true := by
  exact ⟨by rfl, by rfl⟩

/-- C5 amended: normalizing the spec input renames the declaration site (and
would rename every tag usage) to App, but whole-line-anchored export stripping
leaves the trailing mid-line export statement and its bare Widget reference
intact, so the result is exactly
function App(){ return <div/>; } export default Widget;. -/
theorem c5_amended :
    LivePreview.cleanReactCode
      "function Widget()\x7b return <div/>; \x7d export default Widget;" =
      "function App()\x7b return <div/>; \x7d export default Widget;" := by
  rfl

/-- C6 counterexample: normalization is not idempotent.  On the input
export export default foo the first pass strips only the leading plain export
prefix, exposing a new line-initial export default which only the second pass
strips, so applying the normalizer to its own output changes it again. -/
theorem c6_counterexample :
    ¬ (LivePreview.cleanReactCode (LivePreview.cleanReactCode "export export default foo") =
        LivePreview.cleanReactCode "export export default foo") := by
  decide

/-- C6 amended: the normalizer is idempotent on every output that its
strip-and-trim stage leaves unchanged and that already binds the canonical App
identifier; it is not idempotent in general (see the counterexample, where the
first pass exposes a new line-initial export prefix). -/
theorem cleanReactCodeL_fixedPoint (l : Eternity.Chars)
    (h1 : LivePreview.cleanStage1 l = l) (h2 : Eternity.hasAppBinding l = true) :
    LivePreview.cleanReactCodeL l = l := by
  simp only [LivePreview.cleanReactCodeL]
  rw [h1, h2]
  simp

theorem c6_amended (s : String)
    (h1 : LivePreview.cleanStage1S (LivePreview.cleanReactCode s) =
      LivePreview.cleanReactCode s)
    (h2 : LivePreview.hasAppBindingS (LivePreview.cleanReactCode s) = true) :
    LivePreview.cleanReactCode (LivePreview.cleanReactCode s) =
      LivePreview.cleanReactCode s := by
  have htl : ∀ l : Eternity.Chars, (String.mk l).toList = l := fun l => rfl
  unfold LivePreview.cleanReactCode at h1 h2 ⊢
  unfold LivePreview.cleanStage1S at h1
  unfold LivePreview.hasAppBindingS at h2
  rw [htl] at h1 h2 ⊢
  have h1b := congrArg String.data h1
  dsimp only at h1b
  exact congrArg String.mk
    (cleanReactCodeL_fixedPoint (LivePreview.cleanReactCodeL s.toList) h1b h2)

/-- Witness for C6 amended: a source already in canonical form. -/
theorem c6_amended_witness :
    LivePreview.cleanStage1S
        (LivePreview.cleanReactCode "function App()\x7b return <div/>; \x7d") =
      LivePreview.cleanReactCode "function App()\x7b return <div/>; \x7d" ∧
    LivePreview.hasAppBindingS
        (LivePreview.cleanReactCode "function App()\x7b return <div/>; \x7d") = true ∧
    LivePreview.cleanReactCode
        (LivePreview.cleanReactCode "function App()\x7b return <div/>; \x7d") =
      LivePreview.cleanReactCode "function App()\x7b return <div/>; \x7d" :=
  ⟨by rfl, by rfl,
   c6_amended "function App()\x7b return <div/>; \x7d" (by rfl) (by rfl)⟩

/-- C7 counterexample: the fileCounter advances for every newly pushed file,
inferred or not.  Here the first block's name App.tsx is inferred (advancing
the counter to 2), the second block's inference fails because its 200-character
lookback holds only filler, and its synthesized name is code2.txt — not the
code1.txt the claim's counter discipline would produce. -/
theorem c7_counterexample :
    (codeExtractor.extractCodeBlocks
        [⟨"assistant",
          "App.tsx:\n\x60\x60\x60tsx\n" ++ String.mk (List.replicate 220 'a') ++
            "\n\x60\x60\x60\n\x60\x60\x60\nY\n\x60\x60\x60"⟩]).map (fun f => f.name) =
      ["App.tsx", "code2.txt"] ∧
    (codeExtractor.extractTrace
        [⟨"assistant",
          "App.tsx:\n\x60\x60\x60tsx\n" ++ String.mk (List.replicate 220 'a') ++
            "\n\x60\x60\x60\n\x60\x60\x60\nY\n\x60\x60\x60"⟩]).map
      (fun r => r.inferred) = [true, false] := by
  exact ⟨by rfl, by rfl⟩

/-- C7 amended: a failed inference synthesizes code-counter-dot-extension with
the extension drawn from the lookup table (unknown languages give txt), but the
counter is not reserved for synthesized names: it advances exactly when a new
filename is pushed — equivalently it always equals the number of extracted
files plus one — and stays put on overwrites. -/
theorem c7_amended (messages : List codeExtractor.Message) :
    (codeExtractor.runExtract messages).counter =
      (codeExtractor.extractCodeBlocks messages).length + 1 ∧
    (∀ r ∈ codeExtractor.extractTrace messages, r.inferred = false →
      r.name = "code" ++ Nat.repr r.counterBefore ++ "." ++
        codeExtractor.getExtension r.rawLang) ∧
    (∀ lang : String, (codeExtractor.extTable.lookup (codeExtractor.lowerS lang)).isNone →
      codeExtractor.getExtension lang = "txt") := by
  obtain ⟨_h1, h2, h3⟩ := codeExtractor.runExtract_inv messages
  refine ⟨h2, h3, ?_⟩
  intro lang h
  unfold codeExtractor.getExtension
  cases hl : codeExtractor.extTable.lookup (codeExtractor.lowerS lang) with
  | none => rfl
  | some v => rw [hl] at h; cases h

/-- Witness for C7 amended at the counterexample's message: the synthesized
entry satisfies the name shape with the recorded counter, and the final counter
exceeds the file count by one. -/
theorem c7_amended_witness :
    (codeExtractor.runExtract
        [⟨"assistant",
          "App.tsx:\n\x60\x60\x60tsx\n" ++ String.mk (List.replicate 220 'a') ++
            "\n\x60\x60\x60\n\x60\x60\x60\nY\n\x60\x60\x60"⟩]).counter =
      (codeExtractor.extractCodeBlocks
        [⟨"assistant",
          "App.tsx:\n\x60\x60\x60tsx\n" ++ String.mk (List.replicate 220 'a') ++
            "\n\x60\x60\x60\n\x60\x60\x60\nY\n\x60\x60\x60"⟩]).length + 1 ∧
    (⟨"code2.txt", "text", "Y", false, 2⟩ : codeExtractor.Resolved).name =
      "code" ++ Nat.repr 2 ++ "." ++ codeExtractor.getExtension "text" ∧
    codeExtractor.getExtension "weird" = "txt" :=
  ⟨(c7_amended
      [⟨"assistant",
        "App.tsx:\n\x60\x60\x60tsx\n" ++ String.mk (List.replicate 220 'a') ++
          "\n\x60\x60\x60\n\x60\x60\x60\nY\n\x60\x60\x60"⟩]).1,
   (c7_amended
      [⟨"assistant",
        "App.tsx:\n\x60\x60\x60tsx\n" ++ String.mk (List.replicate 220 'a') ++
          "\n\x60\x60\x60\n\x60\x60\x60\nY\n\x60\x60\x60"⟩]).2.1
     ⟨"code2.txt", "text", "Y", false, 2⟩ (by decide) rfl,
   (c7_amended []).2.2 "weird" (by decide)⟩

/-- C8 counterexample: the tables are not mutual inverses as claimed —
getExtension maps typescript to tsx, not back to ts. -/
theorem c8_counterexample :
    codeExtractor.getExtension "typescript" = "tsx" ∧
    ¬ codeExtractor.getExtension "typescript" = "ts" := by
  exact ⟨rfl, by decide⟩

/-- C8 amended: mapLanguage sends ts to typescript, but getExtension sends
typescript to tsx; the tables are inverses only in the normalization
direction, mapLanguage (getExtension L) = L, for the common normalized
languages — and even that round trip fails for markdown, which getExtension
sends to md and mapLanguage leaves as md. -/
theorem c8_amended :
    codeExtractor.mapLanguage "ts" = "typescript" ∧
    codeExtractor.getExtension "typescript" = "tsx" ∧
    (["typescript", "javascript", "python", "css", "html", "json", "sql",
      "shell"].all
      (fun L => codeExtractor.mapLanguage (codeExtractor.getExtension L) == L)) = true ∧
    codeExtractor.mapLanguage (codeExtractor.getExtension "markdown") = "md" := by
  exact ⟨rfl, rfl, by decide, rfl⟩

theorem strDataAppend (a b : String) : (a ++ b).data = a.data ++ b.data := rfl

/-- C9 counterexample: after an auto-recovery attempt (autoFixAttempts = 1)
with a recorded Unexpected token error, the mounted document embeds the
auto-fixed source (brace-else spacing normalized) while handleOpenExternal
calls generatePreviewHtml without the attemptFix flag, so the exported
document embeds the unpatched source: the two byte strings differ. -/
theorem c9_counterexample :
    ¬ (PreviewEngine.externalDocument
        [⟨"App.jsx", "javascript",
          "function App()\x7b if(x)\x7breturn <div/>;\x7delse\x7breturn <span/>;\x7d \x7d"⟩]
        (some "Unexpected token") =
      PreviewEngine.mountedDocument
        [⟨"App.jsx", "javascript",
          "function App()\x7b if(x)\x7breturn <div/>;\x7delse\x7breturn <span/>;\x7d \x7d"⟩]
        1 (some "Unexpected token")) := by
  intro h
  have he : PreviewEngine.externalDocument
      [⟨"App.jsx", "javascript",
        "function App()\x7b if(x)\x7breturn <div/>;\x7delse\x7breturn <span/>;\x7d \x7d"⟩]
      (some "Unexpected token") =
      Except.ok (PreviewEngine.reactTplA ++ "" ++ PreviewEngine.reactTplB ++
        "function App()\x7b if(x)\x7breturn <div/>;\x7delse\x7breturn <span/>;\x7d \x7d" ++
        PreviewEngine.reactTplC) := by rfl
  have hm : PreviewEngine.mountedDocument
      [⟨"App.jsx", "javascript",
        "function App()\x7b if(x)\x7breturn <div/>;\x7delse\x7breturn <span/>;\x7d \x7d"⟩]
      1 (some "Unexpected token") =
      Except.ok (PreviewEngine.reactTplA ++ "" ++ PreviewEngine.reactTplB ++
        "function App()\x7b if(x)\x7breturn <div/>;\x7d else \x7breturn <span/>;\x7d \x7d" ++
        PreviewEngine.reactTplC) := by rfl
  rw [he, hm] at h
  have h2 := congrArg String.data (Except.ok.inj h)
  simp only [strDataAppend] at h2
  have h3 := List.append_cancel_right h2
  have h4 := List.append_cancel_left h3
  exact absurd h4 (by decide)

/-- C9 amended: the exported document is byte-identical to the mounted one
whenever no auto-fix attempt is in effect — that is, when autoFixAttempts is
zero or no error is recorded; after an effective recovery attempt the export
is the unpatched synthesis and can differ from the mounted document. -/
theorem c9_amended (files : List CodeFile) (attempts : Nat) (error : Option String)
    (h : attempts = 0 ∨ error = none) :
    PreviewEngine.externalDocument files error =
      PreviewEngine.mountedDocument files attempts error := by
  rcases h with h | h
  · subst h
    rfl
  · subst h
    unfold PreviewEngine.mountedDocument PreviewEngine.externalDocument
    unfold PreviewEngine.generatePreviewHtml
    simp only [errTruthy, Bool.and_false]

/-- Witness for C9 amended: a fresh session with no recorded error. -/
theorem c9_amended_witness :
    PreviewEngine.externalDocument
        [⟨"App.jsx", "javascript", "function App()\x7b return <div/>; \x7d"⟩] none =
      PreviewEngine.mountedDocument
        [⟨"App.jsx", "javascript", "function App()\x7b return <div/>; \x7d"⟩] 3 none :=
  c9_amended [⟨"App.jsx", "javascript", "function App()\x7b return <div/>; \x7d"⟩] 3 none
    (Or.inr rfl)

/-- C10 (code bug): the two normalizer variants do not compute the same
function.  On a source declaring a component other than App, the LivePreview
variant renames the declaration to App, while the PreviewEngine variant —
whose template literals double-escape every backslash — builds an invalid
declaration-rename regex (unescaped trailing parenthesis, unterminated group)
and throws a SyntaxError from new RegExp. -/
theorem c10_normalizers_diverge :
    LivePreview.cleanReactCode "function Widget()\x7b return <div/>; \x7d" =
      "function App()\x7b return <div/>; \x7d" ∧
    PreviewEngine.cleanReactCode "function Widget()\x7b return <div/>; \x7d" =
      Except.error PreviewEngine.regexErrorMsg := by
  exact ⟨by rfl, by rfl⟩
